import Mathlib

/-!
# Verification of `src/utils/image-processor.ts` (obsidian-to-strapi-export)

Shallow embedding of the image-processing module of the Obsidian → Strapi
export plugin, together with proofs about the specification's claims.

Strings are modelled as `String` / `List Char`.  The JavaScript regular
expressions appearing in the source are fixed and simple, and are embedded
directly as scanning functions:

* `/!\[\[([^\[\]]*\.(png|jpe?g|gif|bmp|webp))\]\]/gi` (in `extractImagePaths`
  and `hasUnexportedImages`) is embedded by `matchAt` / `extractGo`.  At a
  given start position the regex matches exactly when the text reads
  `![[`, then a run of non-bracket characters ending (ASCII
  case-insensitively, which is what the `i` flag does for these literal
  letters) in `.png`/`.jpg`/`.jpeg`/`.gif`/`.bmp`/`.webp`, then `]]`;
  the capture is the whole run.  `exec` in a `while` loop resumes after
  each match, which `extractGo` mirrors.
* `new RegExp('!\\[\\[' + localPath + '\\]\\]', 'g')` (in
  `replaceImagePaths`) interpolates `localPath` unescaped, so each `.` in
  the path is a wildcard (any character except line terminators).  The
  embedding `compilePattern` models this for paths whose characters are
  ordinary or `.`; the concrete inputs used in the theorems below stay in
  this fragment, and replacement strings contain no `$` patterns, so the
  embedding agrees with JavaScript on them.

Loops whose measure is not structural are given fuel equal to the length of
the scanned list, which is always sufficient (`extractGo_fuel_irrelevant`).
-/

/-! ## Asset Locator: `extractImagePaths` and `hasUnexportedImages` -/

/-- The character class `[^\[\]]` excludes exactly these two characters. -/
def isBracket (c : Char) : Bool := c == '[' || c == ']'

/-- The alternation `(png|jpe?g|gif|bmp|webp)` of supported extensions. -/
def validExts : List (List Char) :=
  [['p','n','g'], ['j','p','g'], ['j','p','e','g'], ['g','i','f'], ['b','m','p'], ['w','e','b','p']]

/-- Whether a captured path ends in `.` followed by a supported extension,
ASCII case-insensitively (the effect of the `i` flag on the literal
extension letters). -/
def hasValidExt (s : List Char) : Bool :=
  validExts.any (fun e => ('.' :: e).isSuffixOf (s.map Char.toLower))

/-- One attempt of `/!\[\[([^\[\]]*\.(png|jpe?g|gif|bmp|webp))\]\]/i` at the
head of the text: on success, returns the capture (group 1) and the text
after the match. -/
def matchAt : List Char → Option (List Char × List Char)
  | c₁ :: c₂ :: c₃ :: t =>
    if c₁ == '!' && c₂ == '[' && c₃ == '[' then
      match t.dropWhile (fun ch => !isBracket ch) with
      | d₁ :: d₂ :: t₂ =>
        if d₁ == ']' && d₂ == ']' && hasValidExt (t.takeWhile (fun ch => !isBracket ch)) then
          some (t.takeWhile (fun ch => !isBracket ch), t₂)
        else none
      | _ => none
    else none
  | _ => none

/-- The `while ((match = imageRegex.exec(content)) !== null)` loop of
`extractImagePaths`: scan left to right, emit each capture, resume after
the matched text.  Fuel bounds the loop; `content.length` is enough. -/
def extractGo : Nat → List Char → List (List Char)
  | 0, _ => []
  | _ + 1, [] => []
  | fuel + 1, c :: t =>
    match matchAt (c :: t) with
    | some (r, rest) => r :: extractGo fuel rest
    | none => extractGo fuel t

/-- The function `extractImagePaths` (image-processor.ts lines 274-284). -/
def extractImagePaths (content : String) : List String :=
  (extractGo content.toList.length content.toList).map fun l => String.mk l

/-- The call `imageRegex.test(content)` on a freshly constructed regex: whether a
match starts at some position of the text. -/
def hasMatchAux : List Char → Bool
  | [] => false
  | c :: t => (matchAt (c :: t)).isSome || hasMatchAux t

/-- The function `hasUnexportedImages` (image-processor.ts lines 290-293). -/
def hasUnexportedImages (content : String) : Bool :=
  hasMatchAux content.toList

/-- Modelled from the spec: "extraction returns exactly the set of
local-image references matching the supported extensions, preserving
occurrence order" — the reference captured at every position of the text
at which the embedded-image double-bracket syntax matches, listed in
positional order.  Used as the independent characterisation against which
`extractImagePaths` is compared. -/
def specExtractAux : List Char → List (List Char)
  | [] => []
  | c :: t =>
    match matchAt (c :: t) with
    | some (r, _) => r :: specExtractAux t
    | none => specExtractAux t

/-- Spec-level extraction over a `String`. -/
def specExtractImagePaths (content : String) : List String :=
  (specExtractAux content.toList).map fun l => String.mk l

/-! ## Content Rewriter: `replaceImagePaths` -/

/-- An atom of the dynamically built pattern
`new RegExp('!\\[\\[' + localPath + '\\]\\]', 'g')`: a literal character,
or the wildcard that an unescaped `.` of `localPath` denotes. -/
inductive RAtom
  | lit (c : Char)
  | wild
deriving DecidableEq

/-- How one character of the interpolated `localPath` reads as a regex
atom: `.` is the any-character-but-line-terminator wildcard, other
(ordinary) characters are literals. -/
def compileChar (c : Char) : RAtom := if c = '.' then RAtom.wild else RAtom.lit c

/-- The compiled pattern `!\[\[` + localPath + `\]\]`. -/
def compilePattern (localPath : List Char) : List RAtom :=
  RAtom.lit '!' :: RAtom.lit '[' :: RAtom.lit '[' ::
    (localPath.map compileChar ++ [RAtom.lit ']', RAtom.lit ']'])

/-- Whether an atom matches a character; the wildcard `.` (without the `s`
flag) matches anything except the four line terminators. -/
def atomMatches : RAtom → Char → Bool
  | RAtom.lit a, c => a == c
  | RAtom.wild, c => !(c == '\n' || c == '\r' || c == '\u2028' || c == '\u2029')

/-- Whether the (quantifier-free, hence deterministic) pattern matches a
prefix of the text. -/
def prefixMatch : List RAtom → List Char → Bool
  | [], _ => true
  | _ :: _, [] => false
  | a :: ps, c :: cs => atomMatches a c && prefixMatch ps cs

/-- The call `content.replace(markdownImageRegex, replacement)` with the `g` flag:
scan left to right, splice in the replacement at each match and resume
after the matched text (the pattern has fixed length
`localPath.length + 5`).  Fuel bounds the loop; the content length is
enough. -/
def replaceGo (localPath repl : List Char) : Nat → List Char → List Char
  | 0, s => s
  | _ + 1, [] => []
  | fuel + 1, c :: t =>
    if prefixMatch (compilePattern localPath) (c :: t) then
      repl ++ replaceGo localPath repl fuel (t.drop (localPath.length + 4))
    else
      c :: replaceGo localPath repl fuel t

/-- The `data` member of an uploaded image record (only its
`alternativeText` field is read by the source). -/
structure UploadedImageData where
  alternativeText : String
deriving DecidableEq

/-- One value of the `uploadedImages` map: `{ url, data }`. -/
structure UploadedImage where
  url : String
  data : UploadedImageData
deriving DecidableEq

/-- The replacement text `![${imageData.data.alternativeText}](${imageData.url})`. -/
def replacementText (imageData : UploadedImage) : List Char :=
  '!' :: '[' :: (imageData.data.alternativeText.toList
    ++ ']' :: '(' :: (imageData.url.toList ++ [')']))

/-- The function `replaceImagePaths` (image-processor.ts lines 391-403).  The
`uploadedImages` object is modelled as its `Object.entries` list, iterated
in order; each entry performs one global regex replacement pass. -/
def replaceImagePaths (content : String)
    (uploadedImages : List (String × UploadedImage)) : String :=
  String.mk (uploadedImages.foldl
    (fun acc kv => replaceGo kv.1.toList (replacementText kv.2) acc.length acc)
    content.toList)

/-- Whether the text contains no match of the pattern built from
`localPath`, at any position. -/
def patternFree (localPath : List Char) : List Char → Bool
  | [] => true
  | c :: t => !prefixMatch (compilePattern localPath) (c :: t) && patternFree localPath t

/-! ## Export Orchestrator: `processMarkdownContent`

The orchestrator is an `async` function whose observable behaviour is the
sequence of side effects it performs (notices, vault operations, AI and
HTTP calls, folder renames).  It is embedded as a trace interpreter: the
`Env` structure supplies the results of the host-application and external
calls (with `Option` results for the awaited calls that can reject, `none`
meaning the promise rejected, which aborts the rest of the run since the
source never catches those awaits), and `processMarkdownContent` returns
the list of effects in program order.  `this.settings` and the `settings`
parameter refer to the same settings object and are modelled by the single
`settings` argument.  JavaScript truthiness on the string-valued settings
fields is modelled by comparison with the empty string. -/

/-- The structure `StrapiExporterSettings`: the settings fields read by this module. -/
structure StrapiExporterSettings where
  strapiUrl : String
  strapiApiToken : String
  openaiApiKey : String
  jsonTemplate : String
  jsonTemplateDescription : String
  strapiArticleCreateUrl : String
  strapiContentAttributeName : String
  additionalJsonTemplate : String
  additionalJsonTemplateDescription : String
  additionalUrl : String
  additionalContentAttributeName : String
  mainImageFullPathProperty : String
  mainGalleryFullPathProperty : String
  additionalImageFullPathProperty : String
  additionalGalleryFullPathProperty : String
deriving DecidableEq

/-- A `{ path, blob, name }` record with the binary blob elided (its bytes
are never inspected by the orchestrator). -/
structure ImageBlobInfo where
  path : String
  name : String
deriving DecidableEq

/-- A JSON value stored in the article payload's `data` object: either a
field produced by the article composer / the image path, or the gallery's
list of remote identifiers. -/
inductive JValue
  | str (s : String)
  | ids (l : List Nat)
deriving DecidableEq

/-- An observable effect of one orchestrator run. -/
inductive Event
  | notice (msg : String)
  | getImageBlobCall (folder : String)
  | getGalleryBlobsCall (folder : String)
  | vaultRead
  | imageDescriptionCall (name : String)
  | uploadImagesCall
  | vaultModify (content : String)
  | generateArticleCall (content : String)
  | galleryUploadCall
  | renameFolder (oldPath newPath : String)
  | submitCall (url : String) (payload : List (String × JValue))
deriving DecidableEq

/-- The environment of one run: state of the host app and the results of
the awaited external calls.  A `none` result models a rejected promise. -/
structure Env where
  hasActiveView : Bool
  hasFile : Bool
  articleFolderPath : String
  imageBlobResult : Option ImageBlobInfo
  galleryImageBlobs : List ImageBlobInfo
  vaultContent : String
  imageBlobs : List ImageBlobInfo
  descriptionsOk : Bool
  uploadImagesResult : Option (List (String × UploadedImage))
  generateArticleResult : Option (List (String × JValue))
  galleryUploadResult : Option (List Nat)
  galleryFolderIsFolder : Bool
  imageFolderIsFolder : Bool
  fetchResult : Option Bool
deriving DecidableEq

/-- The settings-validation cascade (image-processor.ts lines 31-97): the
notice text for the first missing required setting of the selected target,
or `none` when every required setting is present. -/
def firstMissingNotice (settings : StrapiExporterSettings)
    (useAdditionalCallAPI : Bool) : Option String :=
  if settings.strapiUrl = "" ∨ settings.strapiApiToken = "" then
    some "Please configure Strapi URL and API token in the plugin settings"
  else if settings.openaiApiKey = "" then
    some "Please configure OpenAI API key in the plugin settings"
  else if useAdditionalCallAPI then
    if settings.additionalJsonTemplate = "" then
      some "Please configure the additional call api JSON template in the plugin settings"
    else if settings.additionalJsonTemplateDescription = "" then
      some "Please configure the additional call api JSON template description in the plugin settings"
    else if settings.additionalUrl = "" then
      some "Please configure the additional call api URL in the plugin settings"
    else if settings.additionalContentAttributeName = "" then
      some "Please configure the additional call api content attribute name in the plugin settings"
    else none
  else
    if settings.jsonTemplate = "" then
      some "Please configure JSON template in the plugin settings"
    else if settings.jsonTemplateDescription = "" then
      some "Please configure JSON template description in the plugin settings"
    else if settings.strapiArticleCreateUrl = "" then
      some "Please configure Strapi article create URL in the plugin settings"
    else if settings.strapiContentAttributeName = "" then
      some "Please configure Strapi content attribute name in the plugin settings"
    else none

/-- The claim's list of required configuration fields for the selected
target, written from the specification's words ("primary: jsonTemplate,
jsonTemplateDescription, strapiArticleCreateUrl,
strapiContentAttributeName; additional: the additional-call counterparts;
both: Strapi URL, Strapi API token, OpenAI key"): whether some required
field is absent. -/
def missingRequired (settings : StrapiExporterSettings)
    (useAdditionalCallAPI : Bool) : Bool :=
  decide (settings.strapiUrl = "") || decide (settings.strapiApiToken = "") ||
  decide (settings.openaiApiKey = "") ||
  (if useAdditionalCallAPI then
    decide (settings.additionalJsonTemplate = "") ||
    decide (settings.additionalJsonTemplateDescription = "") ||
    decide (settings.additionalUrl = "") ||
    decide (settings.additionalContentAttributeName = "")
  else
    decide (settings.jsonTemplate = "") ||
    decide (settings.jsonTemplateDescription = "") ||
    decide (settings.strapiArticleCreateUrl = "") ||
    decide (settings.strapiContentAttributeName = ""))

/-- The path `${articleFolderPath}/${imageFolderName}` (lines 117, 122). -/
def imageFolderPathOf (env : Env) (useAdditionalCallAPI : Bool) : String :=
  env.articleFolderPath ++ "/" ++
    (if useAdditionalCallAPI then "additionalImage" else "mainImage")

/-- The path `${articleFolderPath}/${galleryFolderName}` (lines 118-120, 123). -/
def galleryFolderPathOf (env : Env) (useAdditionalCallAPI : Bool) : String :=
  env.articleFolderPath ++ "/" ++
    (if useAdditionalCallAPI then "additionalGallery" else "mainGallery")

/-- The call `path.replace(/\/[^/]*$/, '/' + seg)`: replace everything from the
last `/` (inclusive) to the end with `/seg`; a path without `/` is
unchanged (no match). -/
def replaceLastSegment (p : String) (seg : String) : String :=
  if p.toList.contains '/' then
    String.mk ((((p.toList.reverse).dropWhile (fun c => !(c == '/'))).drop 1).reverse
      ++ '/' :: seg.toList)
  else p

/-- Membership test `data.any (key present)` used to model object spread
`{ ...data, [k]: v }`: if the key exists its value is overridden in
place, otherwise the pair is appended. -/
def upsertField (data : List (String × JValue)) (k : String) (v : JValue) :
    List (String × JValue) :=
  if data.any (fun kv => kv.1 == k) then
    data.map (fun kv => if kv.1 == k then (kv.1, v) else kv)
  else data ++ [(k, v)]

/-- The merge step (image-processor.ts lines 223-238):
`articleContent.data = { ...articleContent.data, ...(imageBlob &&
imageFullPathProperty && { [imageFullPathProperty]: imageBlob.path }),
...(galleryUploadedImageIds.length > 0 && galleryFullPathProperty &&
{ [galleryFullPathProperty]: galleryUploadedImageIds }) }`. -/
def mergeArticleData (data : List (String × JValue))
    (imageBlob : Option ImageBlobInfo) (imageFullPathProperty : String)
    (galleryUploadedImageIds : List Nat) (galleryFullPathProperty : String) :
    List (String × JValue) :=
  let d1 := match imageBlob with
    | some b =>
      if imageFullPathProperty ≠ "" then
        upsertField data imageFullPathProperty (JValue.str b.path)
      else data
    | none => data
  if galleryUploadedImageIds.length > 0 ∧ galleryFullPathProperty ≠ "" then
    upsertField d1 galleryFullPathProperty (JValue.ids galleryUploadedImageIds)
  else d1

/-- First-field lookup in a payload `data` object. -/
def lookupField : List (String × JValue) → String → Option JValue
  | [], _ => none
  | kv :: t, k => if kv.1 = k then some kv.2 else lookupField t k

/-- The tail of the run from `generateArticleContent` on (image-processor.ts
lines 179-267): article composition, gallery upload, the two conditional
folder renames, the payload merge, and the final authenticated POST with
its try/catch reporting.  `content` is the (possibly rewritten) document
body. -/
def afterImagesTrace (env : Env) (settings : StrapiExporterSettings)
    (useAdditionalCallAPI : Bool) (content : String) : List Event :=
  Event.notice "Generating article content..." ::
  Event.generateArticleCall content ::
  match env.generateArticleResult with
  | none => []
  | some articleData =>
    Event.galleryUploadCall ::
    match env.galleryUploadResult with
    | none => []
    | some galleryUploadedImageIds =>
      (if env.galleryFolderIsFolder then
        [Event.renameFolder (galleryFolderPathOf env useAdditionalCallAPI)
          (replaceLastSegment (galleryFolderPathOf env useAdditionalCallAPI)
            "gallery_alreadyUpload")]
       else []) ++
      (if env.imageFolderIsFolder then
        [Event.renameFolder (imageFolderPathOf env useAdditionalCallAPI)
          (replaceLastSegment (imageFolderPathOf env useAdditionalCallAPI)
            "file_alreadyUpload")]
       else []) ++
      Event.notice "Article content generated successfully!" ::
      Event.submitCall
        (if useAdditionalCallAPI then settings.additionalUrl
         else settings.strapiArticleCreateUrl)
        (mergeArticleData articleData env.imageBlobResult
          (if useAdditionalCallAPI then settings.additionalImageFullPathProperty
           else settings.mainImageFullPathProperty)
          galleryUploadedImageIds
          (if useAdditionalCallAPI then settings.additionalGalleryFullPathProperty
           else settings.mainGalleryFullPathProperty)) ::
      (match env.fetchResult with
       | none => [Event.notice "Error creating article in Strapi."]
       | some true => [Event.notice "Article created successfully in Strapi!"]
       | some false => [Event.notice "Failed to create article in Strapi."]) ++
      [Event.notice "Check your API content now, the article is created & uploaded! 🎉"]

/-- The image sub-pipeline and everything after it (image-processor.ts
lines 116-267), entered once the settings are validated and the active
file is present. -/
def bodyTrace (env : Env) (settings : StrapiExporterSettings)
    (useAdditionalCallAPI : Bool) : List Event :=
  Event.getImageBlobCall (imageFolderPathOf env useAdditionalCallAPI) ::
  Event.getGalleryBlobsCall (galleryFolderPathOf env useAdditionalCallAPI) ::
  Event.vaultRead ::
  if hasUnexportedImages env.vaultContent then
    Event.notice "Getting image descriptions..." ::
    (env.imageBlobs.map fun b => Event.imageDescriptionCall b.name) ++
    (if env.descriptionsOk = false then []
     else
       Event.notice "Uploading images to Strapi..." ::
       Event.uploadImagesCall ::
       match env.uploadImagesResult with
       | none => []
       | some uploadedImages =>
         Event.notice "Replacing image paths..." ::
         Event.vaultModify (replaceImagePaths env.vaultContent uploadedImages) ::
         Event.notice "Images uploaded and links updated successfully!" ::
         afterImagesTrace env settings useAdditionalCallAPI
           (replaceImagePaths env.vaultContent uploadedImages))
  else
    Event.notice "No local images found in the content... Skip the image processing..." ::
    afterImagesTrace env settings useAdditionalCallAPI env.vaultContent

/-- The function `processMarkdownContent` (image-processor.ts lines 16-268), as the
trace of its observable effects in program order. -/
def processMarkdownContent (env : Env) (settings : StrapiExporterSettings)
    (useAdditionalCallAPI : Bool) : List Event :=
  if env.hasActiveView = false then [Event.notice "No active Markdown view"]
  else
    match firstMissingNotice settings useAdditionalCallAPI with
    | some msg => [Event.notice msg]
    | none =>
      Event.notice "All settings are ok, processing Markdown content..." ::
      if env.hasFile = false then [Event.notice "No file found in active view..."]
      else bodyTrace env settings useAdditionalCallAPI

/-! ## Concrete runs used in witnesses and counterexamples -/

/-- A run with an active view but an incomplete configuration (no JSON
template). -/
def envMissing : Env :=
  ⟨true, true, "A", none, [], "", [], true, none, none, none, false, false, none⟩

/-- Settings with the primary JSON template (and the other primary
fields) left empty. -/
def settingsMissing : StrapiExporterSettings :=
  ⟨"su", "tok", "key", "", "", "", "", "", "", "", "", "", "", "", ""⟩

/-- A fully configured settings object for the primary target. -/
def settingsComplete : StrapiExporterSettings :=
  ⟨"su", "tok", "key", "jt", "jtd", "curl", "cattr", "ajt", "ajtd", "aurl",
    "acattr", "imgProp", "galProp", "aimgProp", "agalProp"⟩

/-- A run whose document has no embedded local image and whose awaited
calls succeed (one gallery identifier returned). -/
def envNoImages : Env :=
  ⟨true, true, "A", none, [], "x", [], true, none, some [], some [1], true,
    false, some true⟩

/-- Settings for the successful-rename run. -/
def settingsRename : StrapiExporterSettings :=
  ⟨"su", "tok", "key", "jt", "jtd", "curl", "cattr", "ajt", "ajtd", "aurl",
    "acattr", "imgProp", "galProp", "aimgProp", "agalProp"⟩

/-- A successful run in which the gallery folder exists and one gallery
identifier is returned. -/
def envRename : Env :=
  ⟨true, true, "A", none, [], "x", [], true, none, some [], some [1], true,
    false, some true⟩

/-- A run in which both asset folders exist but are unused: no gallery
image was found, the gallery upload returns no identifiers, and no main
image was found — yet both folders are renamed. -/
def envRenameUnused : Env :=
  ⟨true, true, "A", none, [], "x", [], true, none, some [], some [], true,
    true, some true⟩

/-! ## Lemmas about the extraction scan -/

/-- Inversion of a successful match attempt. -/
theorem matchAt_inv {s r rest : List Char} (h : matchAt s = some (r, rest)) :
    ∃ t, s = '!' :: '[' :: '[' :: t ∧
      r = t.takeWhile (fun ch => !isBracket ch) ∧
      t.dropWhile (fun ch => !isBracket ch) = ']' :: ']' :: rest ∧
      hasValidExt r = true := by
  unfold matchAt at h
  split at h
  · rename_i c₁ c₂ c₃ t
    split at h
    · rename_i hc
      split at h
      · rename_i d₁ d₂ t₂ hdrop
        split at h
        · rename_i hd
          simp only [Option.some.injEq, Prod.mk.injEq] at h
          obtain ⟨rfl, rfl⟩ := h
          simp only [Bool.and_eq_true, beq_iff_eq] at hc hd
          obtain ⟨⟨rfl, rfl⟩, rfl⟩ := hc
          obtain ⟨⟨rfl, rfl⟩, hv⟩ := hd
          exact ⟨t, rfl, rfl, hdrop, hv⟩
        · exact absurd h (by simp)
      · exact absurd h (by simp)
    · exact absurd h (by simp)
  · exact absurd h (by simp)

/-- A match consumes at least the five delimiter characters, so the
remaining text is strictly shorter. -/
theorem matchAt_rest_length {s r rest : List Char} (h : matchAt s = some (r, rest)) :
    rest.length < s.length := by
  obtain ⟨t, rfl, -, hdrop, -⟩ := matchAt_inv h
  have h1 : (t.takeWhile (fun ch => !isBracket ch)).length
      + (t.dropWhile (fun ch => !isBracket ch)).length = t.length := by
    rw [← List.length_append, List.takeWhile_append_dropWhile]
  rw [hdrop] at h1
  simp at h1 ⊢
  omega

/-- No match can start at a character other than `!`. -/
theorem matchAt_ne_excl {c : Char} {l : List Char} (h : c ≠ '!') :
    matchAt (c :: l) = none := by
  match l with
  | [] => rfl
  | [_] => rfl
  | _ :: _ :: _ => simp [matchAt, h]

/-- No match can start at `!` unless the next character is `[`. -/
theorem matchAt_ne_open {c : Char} {l : List Char} (h : c ≠ '[') :
    matchAt ('!' :: c :: l) = none := by
  match l with
  | [] => rfl
  | _ :: _ => simp [matchAt, h]

/-- Any fuel of at least the text's length gives the same scan result. -/
theorem extractGo_fuel_irrelevant {n m : Nat} : ∀ {s : List Char},
    s.length ≤ n → s.length ≤ m → extractGo n s = extractGo m s := by
  induction n generalizing m with
  | zero =>
    intro s hn _
    have : s = [] := List.eq_nil_of_length_eq_zero (Nat.le_zero.mp hn)
    subst this
    cases m <;> rfl
  | succ n ih =>
    intro s hn hm
    cases s with
    | nil => cases m <;> rfl
    | cons c t =>
      cases m with
      | zero => exact absurd hm (by simp)
      | succ m =>
        simp only [extractGo]
        cases hmatch : matchAt (c :: t) with
        | some pr =>
          obtain ⟨r, rest⟩ := pr
          have hlt := matchAt_rest_length hmatch
          simp only [List.length_cons] at hn hm hlt
          exact congrArg _ (ih (by omega) (by omega))
        | none =>
          simp only [List.length_cons] at hn hm
          exact ih (by omega) (by omega)

/-- Unfolding lemma: a failed attempt moves the position scan one step. -/
theorem specExtractAux_cons_none {c : Char} {t : List Char}
    (h : matchAt (c :: t) = none) :
    specExtractAux (c :: t) = specExtractAux t := by
  simp only [specExtractAux, h]

/-- Unfolding lemma: a successful attempt contributes its capture to the
position scan. -/
theorem specExtractAux_cons_some {c : Char} {t r rest : List Char}
    (h : matchAt (c :: t) = some (r, rest)) :
    specExtractAux (c :: t) = r :: specExtractAux t := by
  simp only [specExtractAux, h]

/-- Unfolding lemma: a failed attempt moves the `exec` scan one step. -/
theorem extractGo_succ_none {n : Nat} {c : Char} {t : List Char}
    (h : matchAt (c :: t) = none) :
    extractGo (n + 1) (c :: t) = extractGo n t := by
  simp only [extractGo, h]

/-- Unfolding lemma: a successful attempt emits its capture and resumes
after the matched text. -/
theorem extractGo_succ_some {n : Nat} {c : Char} {t r rest : List Char}
    (h : matchAt (c :: t) = some (r, rest)) :
    extractGo (n + 1) (c :: t) = r :: extractGo n rest := by
  simp only [extractGo, h]

/-- Scanning the inside of a successful match finds nothing: the captured
run contains no bracket, so no `![[` can start within it or at the two
closing brackets. -/
theorem specExtractAux_append_run {r rest : List Char}
    (hr : ∀ a ∈ r, isBracket a = false) :
    specExtractAux (r ++ ']' :: ']' :: rest) = specExtractAux rest := by
  induction r with
  | nil =>
    rw [List.nil_append,
      specExtractAux_cons_none (matchAt_ne_excl (by decide)),
      specExtractAux_cons_none (matchAt_ne_excl (by decide))]
  | cons a r ih =>
    have hrest : ∀ b ∈ r, isBracket b = false := fun b hb => hr b (List.mem_cons_of_mem a hb)
    have hnone : matchAt (a :: (r ++ ']' :: ']' :: rest)) = none := by
      by_cases ha : a = '!'
      · subst ha
        cases r with
        | nil => exact matchAt_ne_open (by decide)
        | cons b r =>
          have hb : isBracket b = false := hrest b (List.mem_cons_self b r)
          have hb2 : b ≠ '[' := by
            intro hEq
            rw [hEq] at hb
            exact absurd hb (by decide)
          exact matchAt_ne_open hb2
      · exact matchAt_ne_excl ha
    rw [List.cons_append, specExtractAux_cons_none hnone]
    exact ih hrest

/-- The non-overlapping resumption of `exec` agrees with collecting the
match found at every position: a match never starts strictly inside a
previous match. -/
theorem extractGo_eq_spec : ∀ (n : Nat) (s : List Char), s.length ≤ n →
    extractGo n s = specExtractAux s := by
  intro n
  induction n with
  | zero =>
    intro s hn
    have : s = [] := List.eq_nil_of_length_eq_zero (Nat.le_zero.mp hn)
    subst this
    rfl
  | succ n ih =>
    intro s hn
    cases s with
    | nil => rfl
    | cons c t =>
      simp only [List.length_cons] at hn
      cases hm : matchAt (c :: t) with
      | none =>
        rw [extractGo_succ_none hm, specExtractAux_cons_none hm]
        exact ih t (by omega)
      | some pr =>
        obtain ⟨r, rest⟩ := pr
        have hlt := matchAt_rest_length hm
        simp only [List.length_cons] at hlt
        rw [extractGo_succ_some hm, specExtractAux_cons_some hm]
        obtain ⟨u, hs, hrtw, hdrop, -⟩ := matchAt_inv hm
        obtain ⟨rfl, rfl⟩ : c = '!' ∧ t = '[' :: '[' :: u := by
          injection hs with h1 h2
          exact ⟨h1, h2⟩
        have e1 : matchAt ('[' :: '[' :: u) = none := matchAt_ne_excl (by decide)
        have e2 : matchAt ('[' :: u) = none := matchAt_ne_excl (by decide)
        have htail : specExtractAux ('[' :: '[' :: u) = specExtractAux rest := by
          rw [specExtractAux_cons_none e1, specExtractAux_cons_none e2]
          have hu : u = u.takeWhile (fun ch => !isBracket ch)
              ++ ']' :: ']' :: rest := by
            conv_lhs => rw [← List.takeWhile_append_dropWhile
              (fun ch => !isBracket ch) u, hdrop]
          rw [hu]
          refine specExtractAux_append_run ?_
          intro a ha
          have := List.mem_takeWhile_imp ha
          simpa using this
        rw [htail, hrtw]
        exact congrArg _ (ih rest (by omega))

/-- The `test` scan finds a match exactly when the position scan collects
something. -/
theorem hasMatchAux_iff_spec (s : List Char) :
    hasMatchAux s = true ↔ specExtractAux s ≠ [] := by
  induction s with
  | nil => simp [hasMatchAux, specExtractAux]
  | cons c t ih =>
    cases hm : matchAt (c :: t) with
    | none => simp only [hasMatchAux, specExtractAux, hm, Option.isSome_none,
        Bool.false_or]; exact ih
    | some pr => simp [hasMatchAux, specExtractAux, hm]

/-- Every collected capture is a bracket-free run with a supported
extension. -/
theorem specExtractAux_shape : ∀ (s r : List Char), r ∈ specExtractAux s →
    (∀ a ∈ r, isBracket a = false) ∧ hasValidExt r = true := by
  intro s
  induction s with
  | nil => intro r hr; simp [specExtractAux] at hr
  | cons c t ih =>
    intro r hr
    cases hm : matchAt (c :: t) with
    | none =>
      simp only [specExtractAux, hm] at hr
      exact ih r hr
    | some pr =>
      obtain ⟨r0, rest⟩ := pr
      simp only [specExtractAux, hm, List.mem_cons] at hr
      rcases hr with rfl | hr
      · obtain ⟨u, -, hrtw, -, hv⟩ := matchAt_inv hm
        refine ⟨?_, hv⟩
        intro a ha
        rw [hrtw] at ha
        have := List.mem_takeWhile_imp ha
        simpa using this
      · exact ih r hr

/-! ## Lemmas about the replacement passes -/

/-- A replacement pass over text free of the pattern is the identity,
whatever the fuel. -/
theorem replaceGo_id_of_patternFree {localPath repl : List Char} :
    ∀ (n : Nat) (s : List Char), patternFree localPath s = true →
      replaceGo localPath repl n s = s := by
  intro n
  induction n with
  | zero => intro s _; rfl
  | succ n ih =>
    intro s hs
    cases s with
    | nil => rfl
    | cons c t =>
      simp only [patternFree, Bool.and_eq_true, Bool.not_eq_true'] at hs
      obtain ⟨h1, h2⟩ := hs
      simp [replaceGo, h1, ih t h2]

/-- Folding all the per-entry passes over text free of every entry's
pattern is the identity. -/
theorem foldl_replace_id {s : List Char} :
    ∀ (m : List (String × UploadedImage)),
      (∀ kv ∈ m, patternFree kv.1.toList s = true) →
      m.foldl (fun acc kv => replaceGo kv.1.toList (replacementText kv.2) acc.length acc) s
        = s := by
  intro m
  induction m with
  | nil => intro _; rfl
  | cons kv m ih =>
    intro h
    simp only [List.foldl_cons]
    rw [replaceGo_id_of_patternFree _ _ (h kv (List.mem_cons_self kv m))]
    exact ih (fun kv2 hkv2 => h kv2 (List.mem_cons_of_mem kv hkv2))

/-! ## Lemmas about the orchestrator trace -/

/-- Whether an event is the gallery-upload call. -/
def isGalleryUploadCall : Event → Bool
  | Event.galleryUploadCall => true
  | _ => false

/-- Whether an event is a folder rename. -/
def isRenameEvent : Event → Bool
  | Event.renameFolder _ _ => true
  | _ => false

/-- Left-to-right trace check: every folder rename happens strictly after
a gallery-upload call (the `seen` flag records whether one has already
occurred). -/
def renamesAfterGalleryUpload : Bool → List Event → Bool
  | _, [] => true
  | seen, e :: t =>
    if isGalleryUploadCall e then renamesAfterGalleryUpload true t
    else if isRenameEvent e then seen && renamesAfterGalleryUpload seen t
    else renamesAfterGalleryUpload seen t

/-- Once the gallery upload has happened, the check trivially passes. -/
theorem renamesAfterGalleryUpload_true : ∀ (l : List Event),
    renamesAfterGalleryUpload true l = true := by
  intro l
  induction l with
  | nil => rfl
  | cons e t ih =>
    by_cases h1 : isGalleryUploadCall e = true
    · simp [renamesAfterGalleryUpload, h1, ih]
    · by_cases h2 : isRenameEvent e = true
      · simp [renamesAfterGalleryUpload, h1, h2, ih]
      · simp [renamesAfterGalleryUpload, h1, h2, ih]

/-- Image-description calls do not affect the check. -/
theorem renamesAfterGalleryUpload_desc (bs : List ImageBlobInfo) (seen : Bool)
    (rest : List Event) :
    renamesAfterGalleryUpload seen
        ((bs.map fun b => Event.imageDescriptionCall b.name) ++ rest)
      = renamesAfterGalleryUpload seen rest := by
  induction bs with
  | nil => rfl
  | cons b bs ih =>
    simp only [List.map_cons, List.cons_append, renamesAfterGalleryUpload,
      isGalleryUploadCall, isRenameEvent]
    simpa using ih

/-- The tail of the run passes the check for any `seen` flag: its renames
all come after its own gallery-upload call. -/
theorem renamesAfterGalleryUpload_afterImages (env : Env)
    (s : StrapiExporterSettings) (u : Bool) (content : String) (seen : Bool) :
    renamesAfterGalleryUpload seen (afterImagesTrace env s u content) = true := by
  unfold afterImagesTrace
  cases env.generateArticleResult with
  | none => simp [renamesAfterGalleryUpload, isGalleryUploadCall, isRenameEvent]
  | some ad =>
    simp only [renamesAfterGalleryUpload, isGalleryUploadCall, isRenameEvent,
      if_false, if_true]
    exact renamesAfterGalleryUpload_true _

/-- The post-validation body of the run passes the check for any `seen`
flag. -/
theorem renamesAfterGalleryUpload_body (env : Env)
    (s : StrapiExporterSettings) (u : Bool) (seen : Bool) :
    renamesAfterGalleryUpload seen (bodyTrace env s u) = true := by
  unfold bodyTrace
  by_cases hflag : hasUnexportedImages env.vaultContent = true
  · rw [if_pos hflag]
    by_cases hdesc : env.descriptionsOk = false
    · rw [if_pos hdesc]
      exact (renamesAfterGalleryUpload_desc env.imageBlobs seen []).trans rfl
    · rw [if_neg hdesc]
      cases hup : env.uploadImagesResult with
      | none =>
        exact (renamesAfterGalleryUpload_desc env.imageBlobs seen _).trans rfl
      | some up =>
        exact (renamesAfterGalleryUpload_desc env.imageBlobs seen _).trans
          (renamesAfterGalleryUpload_afterImages env s u
            (replaceImagePaths env.vaultContent up) seen)
  · rw [if_neg hflag]
    exact renamesAfterGalleryUpload_afterImages env s u env.vaultContent seen

/-- Every run's trace passes the check. -/
theorem processMarkdownContent_renames_check (env : Env)
    (s : StrapiExporterSettings) (u : Bool) :
    renamesAfterGalleryUpload false (processMarkdownContent env s u) = true := by
  unfold processMarkdownContent
  by_cases hav : env.hasActiveView = false
  · rw [if_pos hav]
    rfl
  · rw [if_neg hav]
    cases hfm : firstMissingNotice s u with
    | some m => rfl
    | none =>
      by_cases hf : env.hasFile = false
      · rw [if_pos hf]
        rfl
      · rw [if_neg hf]
        exact renamesAfterGalleryUpload_body env s u false

/-- If a trace passes the check, then ahead of any rename in it there is a
gallery-upload call (unless one was already `seen`). -/
theorem galleryUpload_mem_of_check {l2 : List Event} {f t : String} :
    ∀ (l1 : List Event) (seen : Bool),
      renamesAfterGalleryUpload seen (l1 ++ Event.renameFolder f t :: l2) = true →
      seen = true ∨ Event.galleryUploadCall ∈ l1 := by
  intro l1
  induction l1 with
  | nil =>
    intro seen h
    simp [renamesAfterGalleryUpload, isGalleryUploadCall, isRenameEvent] at h
    exact Or.inl h.1
  | cons e l1 ih =>
    intro seen h
    simp only [List.cons_append, renamesAfterGalleryUpload] at h
    by_cases h1 : isGalleryUploadCall e = true
    · have he : e = Event.galleryUploadCall := by
        cases e <;> simp [isGalleryUploadCall] at h1 ⊢
      exact Or.inr (he ▸ List.mem_cons_self _ _)
    · rw [if_neg h1] at h
      by_cases h2 : isRenameEvent e = true
      · rw [if_pos h2, Bool.and_eq_true] at h
        rcases ih seen h.2 with hs | hm
        · exact Or.inl hs
        · exact Or.inr (List.mem_cons_of_mem e hm)
      · rw [if_neg h2] at h
        rcases ih seen h with hs | hm
        · exact Or.inl hs
        · exact Or.inr (List.mem_cons_of_mem e hm)

/-- A rename in the tail of the run implies the gallery upload returned
successfully and identifies the renamed folder as the gallery or
main-image folder, each renamed only when the host reported it as an
existing folder. -/
theorem rename_mem_afterImages {env : Env} {s : StrapiExporterSettings}
    {u : Bool} {content f t : String}
    (h : Event.renameFolder f t ∈ afterImagesTrace env s u content) :
    env.galleryUploadResult ≠ none ∧
    ((env.galleryFolderIsFolder = true ∧ f = galleryFolderPathOf env u ∧
        t = replaceLastSegment (galleryFolderPathOf env u) "gallery_alreadyUpload") ∨
     (env.imageFolderIsFolder = true ∧ f = imageFolderPathOf env u ∧
        t = replaceLastSegment (imageFolderPathOf env u) "file_alreadyUpload")) := by
  unfold afterImagesTrace at h
  cases hgen : env.generateArticleResult with
  | none => rw [hgen] at h; simp at h
  | some ad =>
    rw [hgen] at h
    cases hgal : env.galleryUploadResult with
    | none => rw [hgal] at h; simp at h
    | some ids =>
      rw [hgal] at h
      refine ⟨by simp [hgal], ?_⟩
      have hfr : Event.renameFolder f t ∉ (match env.fetchResult with
          | none => [Event.notice "Error creating article in Strapi."]
          | some true => [Event.notice "Article created successfully in Strapi!"]
          | some false => [Event.notice "Failed to create article in Strapi."]) := by
        cases hb : env.fetchResult with
        | none => simp
        | some b => cases b <;> simp
      by_cases hgf : env.galleryFolderIsFolder = true
      · rw [if_pos hgf] at h
        by_cases himf : env.imageFolderIsFolder = true
        · rw [if_pos himf] at h
          simp [hfr] at h
          rcases h with ⟨hf2, ht2⟩ | ⟨hf2, ht2⟩
          · exact Or.inl ⟨hgf, hf2, ht2⟩
          · exact Or.inr ⟨himf, hf2, ht2⟩
        · rw [if_neg himf] at h
          simp [hfr] at h
          exact Or.inl ⟨hgf, h.1, h.2⟩
      · rw [if_neg hgf] at h
        by_cases himf : env.imageFolderIsFolder = true
        · rw [if_pos himf] at h
          simp [hfr] at h
          exact Or.inr ⟨himf, h.1, h.2⟩
        · rw [if_neg himf] at h
          simp [hfr] at h

/-- A rename in the post-validation body implies the same. -/
theorem rename_mem_body {env : Env} {s : StrapiExporterSettings}
    {u : Bool} {f t : String}
    (h : Event.renameFolder f t ∈ bodyTrace env s u) :
    env.galleryUploadResult ≠ none ∧
    ((env.galleryFolderIsFolder = true ∧ f = galleryFolderPathOf env u ∧
        t = replaceLastSegment (galleryFolderPathOf env u) "gallery_alreadyUpload") ∨
     (env.imageFolderIsFolder = true ∧ f = imageFolderPathOf env u ∧
        t = replaceLastSegment (imageFolderPathOf env u) "file_alreadyUpload")) := by
  unfold bodyTrace at h
  have hmap : Event.renameFolder f t ∉
      (env.imageBlobs.map fun b => Event.imageDescriptionCall b.name) := by simp
  by_cases hflag : hasUnexportedImages env.vaultContent = true
  · rw [if_pos hflag] at h
    by_cases hdesc : env.descriptionsOk = false
    · rw [if_pos hdesc] at h
      simp [hmap] at h
    · rw [if_neg hdesc] at h
      cases hup : env.uploadImagesResult with
      | none => rw [hup] at h; simp [hmap] at h
      | some up =>
        rw [hup] at h
        simp [hmap] at h
        exact rename_mem_afterImages h
  · rw [if_neg hflag] at h
    simp at h
    exact rename_mem_afterImages h

/-- A rename anywhere in a run implies the same. -/
theorem rename_mem_process {env : Env} {s : StrapiExporterSettings}
    {u : Bool} {f t : String}
    (h : Event.renameFolder f t ∈ processMarkdownContent env s u) :
    env.galleryUploadResult ≠ none ∧
    ((env.galleryFolderIsFolder = true ∧ f = galleryFolderPathOf env u ∧
        t = replaceLastSegment (galleryFolderPathOf env u) "gallery_alreadyUpload") ∨
     (env.imageFolderIsFolder = true ∧ f = imageFolderPathOf env u ∧
        t = replaceLastSegment (imageFolderPathOf env u) "file_alreadyUpload")) := by
  unfold processMarkdownContent at h
  by_cases hav : env.hasActiveView = false
  · rw [if_pos hav] at h; simp at h
  · rw [if_neg hav] at h
    cases hfm : firstMissingNotice s u with
    | some m => rw [hfm] at h; simp at h
    | none =>
      rw [hfm] at h
      by_cases hf : env.hasFile = false
      · rw [if_pos hf] at h; simp at h
      · rw [if_neg hf] at h
        simp at h
        exact rename_mem_body h

/-! ## Lemmas about the payload merge -/

/-- Lookup distributes over appending fields. -/
theorem lookupField_append (l1 l2 : List (String × JValue)) (k : String) :
    lookupField (l1 ++ l2) k = match lookupField l1 k with
      | some v => some v
      | none => lookupField l2 k := by
  induction l1 with
  | nil => simp [lookupField]
  | cons kv t ih =>
    by_cases h : kv.1 = k
    · simp [lookupField, h]
    · simp [lookupField, h, ih]

/-- In-place override: looking up the overridden key yields the new value
when the key is present. -/
theorem lookupField_map_self (data : List (String × JValue)) (k : String) (v : JValue) :
    lookupField (data.map (fun kv => if kv.1 == k then (kv.1, v) else kv)) k
      = if data.any (fun kv => kv.1 == k) then some v else none := by
  induction data with
  | nil => rfl
  | cons kv t ih =>
    simp only [List.map_cons, List.any_cons]
    by_cases h : kv.1 = k
    · have hb : (kv.1 == k) = true := beq_iff_eq.mpr h
      simp [lookupField, hb, h]
    · have hb : (kv.1 == k) = false := beq_eq_false_iff_ne.mpr h
      simp only [beq_iff_eq] at ih
      simp [lookupField, h, ih]
      rw [hb, Bool.false_or]

/-- In-place override leaves every other key's lookup unchanged. -/
theorem lookupField_map_ne (data : List (String × JValue)) (k : String) (v : JValue)
    (k' : String) (h : k' ≠ k) :
    lookupField (data.map (fun kv => if kv.1 == k then (kv.1, v) else kv)) k'
      = lookupField data k' := by
  induction data with
  | nil => rfl
  | cons kv t ih =>
    simp only [List.map_cons]
    by_cases hk : kv.1 = k
    · have hne : k ≠ k' := fun e => h e.symm
      simp only [beq_iff_eq] at ih
      simp [lookupField, hk, hne, ih]
    · by_cases hk2 : kv.1 = k'
      · simp [lookupField, hk, hk2, h]
      · simp only [beq_iff_eq] at ih
        simp [lookupField, hk, hk2, ih]

/-- A key reported absent by `any` looks up to `none`. -/
theorem lookupField_none_of_any_false (data : List (String × JValue)) (k : String)
    (h : data.any (fun kv => kv.1 == k) = false) :
    lookupField data k = none := by
  induction data with
  | nil => rfl
  | cons kv t ih =>
    simp only [List.any_cons, Bool.or_eq_false_iff] at h
    have h1 : kv.1 ≠ k := beq_eq_false_iff_ne.mp h.1
    simp [lookupField, h1, ih h.2]

/-- The object-spread update: the updated key holds the new value, every
other key is unchanged. -/
theorem lookupField_upsertField (data : List (String × JValue)) (k : String)
    (v : JValue) (k' : String) :
    lookupField (upsertField data k v) k'
      = if k' = k then some v else lookupField data k' := by
  unfold upsertField
  by_cases hany : data.any (fun kv => kv.1 == k) = true
  · rw [if_pos hany]
    by_cases hk : k' = k
    · subst hk
      rw [lookupField_map_self, if_pos hany, if_pos rfl]
    · rw [lookupField_map_ne data k v k' hk, if_neg hk]
  · rw [if_neg hany]
    rw [lookupField_append]
    by_cases hk : k' = k
    · subst hk
      rw [lookupField_none_of_any_false data k' (Bool.eq_false_iff.mpr hany)]
      simp [lookupField]
    · cases hl : lookupField data k' with
      | some x => simp [hl, if_neg hk]
      | none =>
        have : k ≠ k' := fun hkk => hk hkk.symm
        simp [hl, lookupField, this, if_neg hk]

/-- If the validation cascade passes, no required field of the selected
target is absent. -/
theorem firstMissingNotice_none (s : StrapiExporterSettings) (u : Bool)
    (h : firstMissingNotice s u = none) : missingRequired s u = false := by
  unfold firstMissingNotice at h
  unfold missingRequired
  by_cases h1 : s.strapiUrl = "" ∨ s.strapiApiToken = ""
  · rw [if_pos h1] at h
    exact absurd h (by simp)
  · rw [if_neg h1] at h
    push_neg at h1
    by_cases h2 : s.openaiApiKey = ""
    · rw [if_pos h2] at h
      exact absurd h (by simp)
    · rw [if_neg h2] at h
      cases u with
      | false =>
        rw [if_neg Bool.false_ne_true] at h
        by_cases h3 : s.jsonTemplate = ""
        · rw [if_pos h3] at h; exact absurd h (by simp)
        · rw [if_neg h3] at h
          by_cases h4 : s.jsonTemplateDescription = ""
          · rw [if_pos h4] at h; exact absurd h (by simp)
          · rw [if_neg h4] at h
            by_cases h5 : s.strapiArticleCreateUrl = ""
            · rw [if_pos h5] at h; exact absurd h (by simp)
            · rw [if_neg h5] at h
              by_cases h6 : s.strapiContentAttributeName = ""
              · rw [if_pos h6] at h; exact absurd h (by simp)
              · simp [h1.1, h1.2, h2, h3, h4, h5, h6]
      | true =>
        rw [if_pos rfl] at h
        by_cases h3 : s.additionalJsonTemplate = ""
        · rw [if_pos h3] at h; exact absurd h (by simp)
        · rw [if_neg h3] at h
          by_cases h4 : s.additionalJsonTemplateDescription = ""
          · rw [if_pos h4] at h; exact absurd h (by simp)
          · rw [if_neg h4] at h
            by_cases h5 : s.additionalUrl = ""
            · rw [if_pos h5] at h; exact absurd h (by simp)
            · rw [if_neg h5] at h
              by_cases h6 : s.additionalContentAttributeName = ""
              · rw [if_pos h6] at h; exact absurd h (by simp)
              · simp [h1.1, h1.2, h2, h3, h4, h5, h6]

/-! ## Claim theorems -/

/-- C1 counterexample: `extractImagePaths` is not duplicate-free — a
reference occurring twice is returned twice, refuting the claim's
"duplicate-free list". -/
theorem extractImagePaths_duplicates :
    extractImagePaths "![[a.png]] ![[a.png]]" = ["a.png", "a.png"] ∧
      ¬ (extractImagePaths "![[a.png]] ![[a.png]]").Nodup := by
  decide

/-- C1 (amended): for every document text, `extractImagePaths` returns
exactly the local image references that appear in embedded-image
double-bracket syntax with a supported extension (matched ASCII
case-insensitively), listed in order of occurrence with one entry per
occurrence — duplicates included, since the source never deduplicates. -/
theorem extractImagePaths_eq_specExtract (content : String) :
    extractImagePaths content = specExtractImagePaths content := by
  unfold extractImagePaths specExtractImagePaths
  rw [extractGo_eq_spec content.toList.length content.toList (Nat.le_refl _)]

/-- C5: `hasUnexportedImages` returns `true` exactly when
`extractImagePaths` returns a non-empty list, for every content. -/
theorem hasUnexportedImages_iff_extract (content : String) :
    hasUnexportedImages content = true ↔ extractImagePaths content ≠ [] := by
  unfold hasUnexportedImages extractImagePaths
  rw [extractGo_eq_spec content.toList.length content.toList (Nat.le_refl _),
    hasMatchAux_iff_spec]
  simp

/-- C10: every path returned by `extractImagePaths` contains no bracket
character and ends, ASCII case-insensitively, in `.png`, `.jpg`, `.jpeg`,
`.gif`, `.bmp` or `.webp`. -/
theorem extractImagePaths_shape (content : String) (p : String)
    (hp : p ∈ extractImagePaths content) :
    '[' ∉ p.toList ∧ ']' ∉ p.toList ∧
      ∃ e ∈ validExts, ('.' :: e) <:+ (p.toList.map Char.toLower) := by
  unfold extractImagePaths at hp
  rw [extractGo_eq_spec content.toList.length content.toList (Nat.le_refl _)] at hp
  rcases List.mem_map.mp hp with ⟨r, hr, rfl⟩
  obtain ⟨hnb, hv⟩ := specExtractAux_shape content.toList r hr
  have htl : (String.mk r).toList = r := rfl
  rw [htl]
  refine ⟨?_, ?_, ?_⟩
  · intro hmem
    exact absurd (hnb '[' hmem) (by decide)
  · intro hmem
    exact absurd (hnb ']' hmem) (by decide)
  · unfold hasValidExt at hv
    rcases List.any_eq_true.mp hv with ⟨e, he, hsuf⟩
    exact ⟨e, he, List.isSuffixOf_iff_suffix.mp hsuf⟩

/-- Witness for C10 at a concrete input. -/
theorem extractImagePaths_shape_witness :
    "a.png" ∈ extractImagePaths "![[a.png]]" ∧
      ('[' ∉ ("a.png" : String).toList ∧ ']' ∉ ("a.png" : String).toList ∧
        ∃ e ∈ validExts, ('.' :: e) <:+ (("a.png" : String).toList.map Char.toLower)) :=
  ⟨by decide, extractImagePaths_shape "![[a.png]]" "a.png" (by decide)⟩

/-- C9: the worked example from the specification — a mapped reference is
rewritten to the stored alternative text and URL. -/
theorem replaceImagePaths_example :
    replaceImagePaths "![[img/a.png]] hello"
        [("img/a.png", ⟨"https://x/a.png", ⟨"A cat"⟩⟩)]
      = "![A cat](https://x/a.png) hello" := by
  decide

/-- C4 (code bug): the path is interpolated unescaped into the dynamic
regex, so the `.` of a map key matches any character: the reference
`![[aXb.png]]` — a well-formed local reference whose path is not a key of
the map — is rewritten by the entry for `a.b.png` instead of being left
untouched. -/
theorem replaceImagePaths_wildcard_bug :
    extractImagePaths "![[aXb.png]]" = ["aXb.png"] ∧
      ("aXb.png" : String) ≠ "a.b.png" ∧
      replaceImagePaths "![[aXb.png]]" [("a.b.png", ⟨"u", ⟨"A"⟩⟩)] = "![A](u)" := by
  decide

/-- C2 counterexample: an alternative text that reintroduces the
double-bracket syntax makes a second application change the text again. -/
theorem replaceImagePaths_not_idempotent :
    replaceImagePaths
        (replaceImagePaths "![[a.png]]" [("a.png", ⟨"u", ⟨"[a.png]]"⟩⟩)])
        [("a.png", ⟨"u", ⟨"[a.png]]"⟩⟩)]
      ≠ replaceImagePaths "![[a.png]]" [("a.png", ⟨"u", ⟨"[a.png]]"⟩⟩)] := by
  decide

/-- C2 (amended): `replaceImagePaths` is idempotent provided that after
the first rewrite the content no longer matches any mapped path's
embedded-image pattern (the situation the specification's own
justification describes; the counterexample shows an adversarial
alternative text can violate it). -/
theorem replaceImagePaths_idempotent (content : String)
    (uploadedImages : List (String × UploadedImage))
    (h : ∀ kv ∈ uploadedImages,
      patternFree kv.1.toList (replaceImagePaths content uploadedImages).toList = true) :
    replaceImagePaths (replaceImagePaths content uploadedImages) uploadedImages
      = replaceImagePaths content uploadedImages := by
  unfold replaceImagePaths at h ⊢
  exact congrArg String.mk (foldl_replace_id uploadedImages h)

/-- Witness for C2's amended theorem at a concrete input. -/
theorem replaceImagePaths_idempotent_witness :
    (∀ kv ∈ [(("a.png" : String), (⟨"u", ⟨"A"⟩⟩ : UploadedImage))],
      patternFree kv.1.toList
        (replaceImagePaths "![[a.png]] hi" [("a.png", ⟨"u", ⟨"A"⟩⟩)]).toList = true) ∧
    replaceImagePaths (replaceImagePaths "![[a.png]] hi" [("a.png", ⟨"u", ⟨"A"⟩⟩)])
        [("a.png", ⟨"u", ⟨"A"⟩⟩)]
      = replaceImagePaths "![[a.png]] hi" [("a.png", ⟨"u", ⟨"A"⟩⟩)] :=
  ⟨by decide,
    replaceImagePaths_idempotent "![[a.png]] hi" [("a.png", ⟨"u", ⟨"A"⟩⟩)] (by decide)⟩

/-- C8: the merge step touches at most the two configured field names —
the gallery field holds the identifier list exactly when at least one
identifier was returned and the name is set (and wins if both names
coincide, matching spread order), the image field holds the main image's
local path exactly when a main image was found and the name is set, and
the lookup of every other field of the composed payload is unchanged. -/
theorem merge_frame (data : List (String × JValue)) (imageBlob : Option ImageBlobInfo)
    (imageFullPathProperty : String) (galleryUploadedImageIds : List Nat)
    (galleryFullPathProperty : String) (k : String) :
    lookupField (mergeArticleData data imageBlob imageFullPathProperty
        galleryUploadedImageIds galleryFullPathProperty) k =
      if k = galleryFullPathProperty ∧ galleryUploadedImageIds ≠ [] ∧
          galleryFullPathProperty ≠ "" then
        some (JValue.ids galleryUploadedImageIds)
      else
        match imageBlob with
        | some b =>
          if k = imageFullPathProperty ∧ imageFullPathProperty ≠ "" then
            some (JValue.str b.path)
          else lookupField data k
        | none => lookupField data k := by
  have hgiff : galleryUploadedImageIds.length > 0 ↔ galleryUploadedImageIds ≠ [] :=
    List.length_pos
  unfold mergeArticleData
  cases imageBlob with
  | none =>
    dsimp only
    by_cases hg : galleryUploadedImageIds.length > 0 ∧ galleryFullPathProperty ≠ ""
    · rw [if_pos hg, lookupField_upsertField]
      by_cases hk : k = galleryFullPathProperty
      · have hc : k = galleryFullPathProperty ∧ galleryUploadedImageIds ≠ [] ∧
            galleryFullPathProperty ≠ "" := ⟨hk, hgiff.mp hg.1, hg.2⟩
        rw [if_pos hk, if_pos hc]
      · have hnc : ¬(k = galleryFullPathProperty ∧ galleryUploadedImageIds ≠ [] ∧
            galleryFullPathProperty ≠ "") := fun hc => hk hc.1
        rw [if_neg hk, if_neg hnc]
    · have hnc : ¬(k = galleryFullPathProperty ∧ galleryUploadedImageIds ≠ [] ∧
          galleryFullPathProperty ≠ "") := fun hc => hg ⟨hgiff.mpr hc.2.1, hc.2.2⟩
      rw [if_neg hg, if_neg hnc]
  | some b =>
    dsimp only
    by_cases hi : imageFullPathProperty ≠ ""
    · rw [if_pos hi]
      by_cases hg : galleryUploadedImageIds.length > 0 ∧ galleryFullPathProperty ≠ ""
      · rw [if_pos hg, lookupField_upsertField]
        by_cases hk : k = galleryFullPathProperty
        · have hc : k = galleryFullPathProperty ∧ galleryUploadedImageIds ≠ [] ∧
              galleryFullPathProperty ≠ "" := ⟨hk, hgiff.mp hg.1, hg.2⟩
          rw [if_pos hk, if_pos hc]
        · have hnc : ¬(k = galleryFullPathProperty ∧ galleryUploadedImageIds ≠ [] ∧
              galleryFullPathProperty ≠ "") := fun hc => hk hc.1
          rw [if_neg hk, if_neg hnc, lookupField_upsertField]
          by_cases hk2 : k = imageFullPathProperty
          · have hci : k = imageFullPathProperty ∧ imageFullPathProperty ≠ "" := ⟨hk2, hi⟩
            rw [if_pos hk2, if_pos hci]
          · have hnci : ¬(k = imageFullPathProperty ∧ imageFullPathProperty ≠ "") :=
              fun hc => hk2 hc.1
            rw [if_neg hk2, if_neg hnci]
      · have hnc : ¬(k = galleryFullPathProperty ∧ galleryUploadedImageIds ≠ [] ∧
            galleryFullPathProperty ≠ "") := fun hc => hg ⟨hgiff.mpr hc.2.1, hc.2.2⟩
        rw [if_neg hg, if_neg hnc, lookupField_upsertField]
        by_cases hk2 : k = imageFullPathProperty
        · have hci : k = imageFullPathProperty ∧ imageFullPathProperty ≠ "" := ⟨hk2, hi⟩
          rw [if_pos hk2, if_pos hci]
        · have hnci : ¬(k = imageFullPathProperty ∧ imageFullPathProperty ≠ "") :=
            fun hc => hk2 hc.1
          rw [if_neg hk2, if_neg hnci]
    · rw [if_neg hi]
      have hnci : ¬(k = imageFullPathProperty ∧ imageFullPathProperty ≠ "") :=
        fun hc => hi hc.2
      by_cases hg : galleryUploadedImageIds.length > 0 ∧ galleryFullPathProperty ≠ ""
      · rw [if_pos hg, lookupField_upsertField]
        by_cases hk : k = galleryFullPathProperty
        · have hc : k = galleryFullPathProperty ∧ galleryUploadedImageIds ≠ [] ∧
              galleryFullPathProperty ≠ "" := ⟨hk, hgiff.mp hg.1, hg.2⟩
          rw [if_pos hk, if_pos hc]
        · have hnc : ¬(k = galleryFullPathProperty ∧ galleryUploadedImageIds ≠ [] ∧
              galleryFullPathProperty ≠ "") := fun hc => hk hc.1
          rw [if_neg hk, if_neg hnc, if_neg hnci]
      · have hnc : ¬(k = galleryFullPathProperty ∧ galleryUploadedImageIds ≠ [] ∧
            galleryFullPathProperty ≠ "") := fun hc => hg ⟨hgiff.mpr hc.2.1, hc.2.2⟩
        rw [if_neg hg, if_neg hnc, if_neg hnci]

/-- C7: when detection finds no embedded local image, the run performs no
image-description call, no image upload and no document rewrite, yet still
performs article composition on the unchanged document, the gallery
upload, and the final submission call (hypotheses: the run reaches the
body — active view, complete settings, file present — and the awaited
composition and gallery-upload calls return). -/
theorem no_images_skips_pipeline (env : Env) (s : StrapiExporterSettings) (u : Bool)
    (ad : List (String × JValue)) (ids : List Nat)
    (hav : env.hasActiveView = true)
    (hset : firstMissingNotice s u = none)
    (hfile : env.hasFile = true)
    (hflag : hasUnexportedImages env.vaultContent = false)
    (hgen : env.generateArticleResult = some ad)
    (hgal : env.galleryUploadResult = some ids) :
    (∀ nm, Event.imageDescriptionCall nm ∉ processMarkdownContent env s u) ∧
    Event.uploadImagesCall ∉ processMarkdownContent env s u ∧
    (∀ c2, Event.vaultModify c2 ∉ processMarkdownContent env s u) ∧
    Event.generateArticleCall env.vaultContent ∈ processMarkdownContent env s u ∧
    Event.galleryUploadCall ∈ processMarkdownContent env s u ∧
    Event.submitCall
        (if u then s.additionalUrl else s.strapiArticleCreateUrl)
        (mergeArticleData ad env.imageBlobResult
          (if u then s.additionalImageFullPathProperty
           else s.mainImageFullPathProperty)
          ids
          (if u then s.additionalGalleryFullPathProperty
           else s.mainGalleryFullPathProperty))
      ∈ processMarkdownContent env s u := by
  have htr : processMarkdownContent env s u =
      Event.notice "All settings are ok, processing Markdown content..." ::
      Event.getImageBlobCall (imageFolderPathOf env u) ::
      Event.getGalleryBlobsCall (galleryFolderPathOf env u) ::
      Event.vaultRead ::
      Event.notice "No local images found in the content... Skip the image processing..." ::
      afterImagesTrace env s u env.vaultContent := by
    unfold processMarkdownContent bodyTrace
    rw [if_neg (by simp [hav]), hset, if_neg (by simp [hfile]),
      if_neg (by simp [hflag])]
  have hai : afterImagesTrace env s u env.vaultContent =
      Event.notice "Generating article content..." ::
      Event.generateArticleCall env.vaultContent ::
      Event.galleryUploadCall ::
      (((if env.galleryFolderIsFolder then
          [Event.renameFolder (galleryFolderPathOf env u)
            (replaceLastSegment (galleryFolderPathOf env u) "gallery_alreadyUpload")]
        else []) ++
       (if env.imageFolderIsFolder then
          [Event.renameFolder (imageFolderPathOf env u)
            (replaceLastSegment (imageFolderPathOf env u) "file_alreadyUpload")]
        else []) ++
       Event.notice "Article content generated successfully!" ::
       Event.submitCall
          (if u then s.additionalUrl else s.strapiArticleCreateUrl)
          (mergeArticleData ad env.imageBlobResult
            (if u then s.additionalImageFullPathProperty
             else s.mainImageFullPathProperty)
            ids
            (if u then s.additionalGalleryFullPathProperty
             else s.mainGalleryFullPathProperty)) ::
       (match env.fetchResult with
         | none => [Event.notice "Error creating article in Strapi."]
         | some true => [Event.notice "Article created successfully in Strapi!"]
         | some false => [Event.notice "Failed to create article in Strapi."])) ++
       [Event.notice "Check your API content now, the article is created & uploaded! 🎉"]) := by
    unfold afterImagesTrace
    rw [hgen, hgal]
  have hfetch1 : ∀ nm, Event.imageDescriptionCall nm ∉ (match env.fetchResult with
      | none => [Event.notice "Error creating article in Strapi."]
      | some true => [Event.notice "Article created successfully in Strapi!"]
      | some false => [Event.notice "Failed to create article in Strapi."]) := by
    intro nm
    cases env.fetchResult with
    | none => simp
    | some b => cases b <;> simp
  have hfetch2 : Event.uploadImagesCall ∉ (match env.fetchResult with
      | none => [Event.notice "Error creating article in Strapi."]
      | some true => [Event.notice "Article created successfully in Strapi!"]
      | some false => [Event.notice "Failed to create article in Strapi."]) := by
    cases env.fetchResult with
    | none => simp
    | some b => cases b <;> simp
  have hfetch3 : ∀ c2, Event.vaultModify c2 ∉ (match env.fetchResult with
      | none => [Event.notice "Error creating article in Strapi."]
      | some true => [Event.notice "Article created successfully in Strapi!"]
      | some false => [Event.notice "Failed to create article in Strapi."]) := by
    intro c2
    cases env.fetchResult with
    | none => simp
    | some b => cases b <;> simp
  rw [htr, hai]
  refine ⟨?_, ?_, ?_, ?_, ?_, ?_⟩
  · intro nm
    simp [hfetch1 nm]
  · simp [hfetch2]
  · intro c2
    simp [hfetch3 c2]
  · simp
  · simp
  · simp

/-- C6: with an active view, whenever some required field for the
selected target is absent, the run emits exactly one notice — the one for
the first missing setting in the validation cascade — and returns, with
no further effect (in particular no network call). -/
theorem missing_setting_aborts (env : Env) (s : StrapiExporterSettings) (u : Bool)
    (hav : env.hasActiveView = true) (hm : missingRequired s u = true) :
    ∃ m, firstMissingNotice s u = some m ∧
      processMarkdownContent env s u = [Event.notice m] := by
  cases hfm : firstMissingNotice s u with
  | none =>
    rw [firstMissingNotice_none s u hfm] at hm
    exact absurd hm (by simp)
  | some m =>
    refine ⟨m, rfl, ?_⟩
    unfold processMarkdownContent
    rw [if_neg (by simp [hav]), hfm]

/-- Witness for C6 at a concrete configuration missing its JSON template. -/
theorem missing_setting_aborts_witness :
    envMissing.hasActiveView = true ∧
    missingRequired settingsMissing false = true ∧
    ∃ m, firstMissingNotice settingsMissing false = some m ∧
      processMarkdownContent envMissing settingsMissing false = [Event.notice m] :=
  ⟨rfl, by decide, missing_setting_aborts envMissing settingsMissing false rfl (by decide)⟩

/-- Witness for C7 at a concrete run whose document holds no embedded
local image. -/
theorem no_images_skips_pipeline_witness :
    envNoImages.hasActiveView = true ∧
    firstMissingNotice settingsComplete false = none ∧
    envNoImages.hasFile = true ∧
    hasUnexportedImages envNoImages.vaultContent = false ∧
    envNoImages.generateArticleResult = some [] ∧
    envNoImages.galleryUploadResult = some [1] ∧
    ((∀ nm, Event.imageDescriptionCall nm ∉
        processMarkdownContent envNoImages settingsComplete false) ∧
     Event.uploadImagesCall ∉ processMarkdownContent envNoImages settingsComplete false ∧
     (∀ c2, Event.vaultModify c2 ∉
        processMarkdownContent envNoImages settingsComplete false) ∧
     Event.generateArticleCall envNoImages.vaultContent ∈
        processMarkdownContent envNoImages settingsComplete false ∧
     Event.galleryUploadCall ∈ processMarkdownContent envNoImages settingsComplete false ∧
     Event.submitCall
        (if false then settingsComplete.additionalUrl
         else settingsComplete.strapiArticleCreateUrl)
        (mergeArticleData [] envNoImages.imageBlobResult
          (if false then settingsComplete.additionalImageFullPathProperty
           else settingsComplete.mainImageFullPathProperty)
          [1]
          (if false then settingsComplete.additionalGalleryFullPathProperty
           else settingsComplete.mainGalleryFullPathProperty))
      ∈ processMarkdownContent envNoImages settingsComplete false) :=
  ⟨rfl, by decide, rfl, by decide, rfl, rfl,
    no_images_skips_pipeline envNoImages settingsComplete false [] [1]
      rfl (by decide) rfl (by decide) rfl rfl⟩

/-- C3 (amended): in every run, any folder rename is strictly preceded in
the trace by the gallery-upload call, which must have returned
successfully, and the renamed folder is the gallery folder or the
main-image folder, each renamed only when the host reported it as an
existing folder.  (The source renames on existence alone: an existing but
unused folder is still renamed, and the main image is never uploaded —
see the counterexample.) -/
theorem rename_after_gallery_upload (env : Env) (s : StrapiExporterSettings)
    (u : Bool) (l1 l2 : List Event) (f t : String)
    (h : processMarkdownContent env s u = l1 ++ Event.renameFolder f t :: l2) :
    Event.galleryUploadCall ∈ l1 ∧
    env.galleryUploadResult ≠ none ∧
    ((env.galleryFolderIsFolder = true ∧ f = galleryFolderPathOf env u ∧
        t = replaceLastSegment (galleryFolderPathOf env u) "gallery_alreadyUpload") ∨
     (env.imageFolderIsFolder = true ∧ f = imageFolderPathOf env u ∧
        t = replaceLastSegment (imageFolderPathOf env u) "file_alreadyUpload")) := by
  have hmem : Event.renameFolder f t ∈ processMarkdownContent env s u := by
    rw [h]
    exact List.mem_append_right _ (List.mem_cons_self _ _)
  obtain ⟨hgal, hdisj⟩ := rename_mem_process hmem
  have hcheck := processMarkdownContent_renames_check env s u
  rw [h] at hcheck
  rcases galleryUpload_mem_of_check l1 false hcheck with hfalse | hmem1
  · exact absurd hfalse (by simp)
  · exact ⟨hmem1, hgal, hdisj⟩

/-- Witness for C3's amended theorem on a concrete successful run. -/
theorem rename_after_gallery_upload_witness :
    (processMarkdownContent envRename settingsRename false =
      [Event.notice "All settings are ok, processing Markdown content...",
       Event.getImageBlobCall "A/mainImage",
       Event.getGalleryBlobsCall "A/mainGallery",
       Event.vaultRead,
       Event.notice "No local images found in the content... Skip the image processing...",
       Event.notice "Generating article content...",
       Event.generateArticleCall "x",
       Event.galleryUploadCall] ++
      Event.renameFolder "A/mainGallery" "A/gallery_alreadyUpload" ::
      [Event.notice "Article content generated successfully!",
       Event.submitCall "curl" [("galProp", JValue.ids [1])],
       Event.notice "Article created successfully in Strapi!",
       Event.notice "Check your API content now, the article is created & uploaded! 🎉"]) ∧
    (Event.galleryUploadCall ∈
      [Event.notice "All settings are ok, processing Markdown content...",
       Event.getImageBlobCall "A/mainImage",
       Event.getGalleryBlobsCall "A/mainGallery",
       Event.vaultRead,
       Event.notice "No local images found in the content... Skip the image processing...",
       Event.notice "Generating article content...",
       Event.generateArticleCall "x",
       Event.galleryUploadCall] ∧
     envRename.galleryUploadResult ≠ none ∧
     ((envRename.galleryFolderIsFolder = true ∧
        "A/mainGallery" = galleryFolderPathOf envRename false ∧
        "A/gallery_alreadyUpload" =
          replaceLastSegment (galleryFolderPathOf envRename false) "gallery_alreadyUpload") ∨
      (envRename.imageFolderIsFolder = true ∧
        "A/mainGallery" = imageFolderPathOf envRename false ∧
        "A/gallery_alreadyUpload" =
          replaceLastSegment (imageFolderPathOf envRename false) "file_alreadyUpload"))) :=
  ⟨by decide,
    rename_after_gallery_upload envRename settingsRename false
      [Event.notice "All settings are ok, processing Markdown content...",
       Event.getImageBlobCall "A/mainImage",
       Event.getGalleryBlobsCall "A/mainGallery",
       Event.vaultRead,
       Event.notice "No local images found in the content... Skip the image processing...",
       Event.notice "Generating article content...",
       Event.generateArticleCall "x",
       Event.galleryUploadCall]
      [Event.notice "Article content generated successfully!",
       Event.submitCall "curl" [("galProp", JValue.ids [1])],
       Event.notice "Article created successfully in Strapi!",
       Event.notice "Check your API content now, the article is created & uploaded! 🎉"]
      "A/mainGallery" "A/gallery_alreadyUpload" (by decide)⟩

/-- C3 counterexample: in a run where the gallery folder exists but holds
no image (the upload returns no identifiers) and no main image was found,
both folders are still renamed to their processed-marker names — the code
renames on existence alone, and the main image is never uploaded at all. -/
theorem rename_without_assets :
    envRenameUnused.galleryImageBlobs = [] ∧
    envRenameUnused.galleryUploadResult = some [] ∧
    envRenameUnused.imageBlobResult = none ∧
    Event.renameFolder "A/mainGallery" "A/gallery_alreadyUpload" ∈
      processMarkdownContent envRenameUnused settingsRename false ∧
    Event.renameFolder "A/mainImage" "A/file_alreadyUpload" ∈
      processMarkdownContent envRenameUnused settingsRename false := by
  decide
